import Mathlib

/-!
# Verification of the bounded-concurrency batch driver

Shallow embedding of `src/scripts/batch_medical_processor.py`
(class `MedicalBatchProcessor`): the per-item wrapper
`process_single_document`, the driver/aggregator `process_documents_batch`
and the report renderer `print_batch_summary`.

Modelling decisions:
* Wall-clock times and durations are rationals (`ℚ`).  The behaviour of the
  external processing call for one item is a parameter (`ProcBehavior`):
  it either returns normally at a given absolute time with a given
  validation-query answer, or raises an exception with a given description
  at a given absolute time.  This mirrors the fact that the processing
  logic itself lives outside the repository.
* A per-item result delivered to `asyncio.gather(..., return_exceptions=True)`
  is `Except String DocResult`: `.error msg` is a bare exception object
  (whose `str` is `msg`) escaping the per-item wrapper, `.ok r` a structured
  result dict.
* A Python dict keyed by strings is an association list with
  insert-or-overwrite semantics (`dictInsert`): assigning to an existing key
  replaces the value in place, assigning to a fresh key appends.
* The `asyncio.Semaphore` concurrency gate does not influence which record
  an item yields (per-item results are deterministic functions of the item
  and its behaviour), so the functional driver takes `max_workers` as an
  argument that the aggregation does not consult; the gate itself is
  modelled separately as a transition system (`GateStep`) to settle the
  concurrency-bound claim.
* `print_batch_summary` formats the success rate with one decimal place;
  this is modelled exactly as the integer number of tenths of a percent
  (`ratePct1`).  With `total_documents = 0` the Python expression
  `completed / total_documents` raises `ZeroDivisionError`, so the renderer
  is embedded as `Except String Report`.
-/

/-- A resolved file location, as used by the driver: `file_path.name`,
`str(file_path)` and `file_path.stem` are the three projections of a
`pathlib.Path` the code reads. -/
structure FilePathRef where
  path : String
  name : String
  stem : String
deriving DecidableEq, Repr

/-- Behaviour of the external processing of one item (the body of the `try`
block of `process_single_document`: `rag.process_document_complete` followed
by the validation `aquery`).  Either the calls return normally, with
`time.time()` reading `tEnd` afterwards and the validation query answering
`queryResult`, or some call raises an exception whose `str` is `msg`, with
`time.time()` reading `tEnd` in the `except` handler. -/
inductive ProcBehavior where
  | success (tEnd : ℚ) (queryResult : String)
  | fault (tEnd : ℚ) (msg : String)
deriving DecidableEq, Repr

/-- Behaviour of one item's whole dispatch: either the wrapper
`process_with_semaphore`/`process_single_document` runs (with the given
start timestamp and external behaviour; per-item faults are caught inside),
or a bare exception with description `msg` escapes the wrapper and reaches
`asyncio.gather` as a value (the top-level isolation gap of spec §7). -/
inductive ItemBehavior where
  | runs (startTime : ℚ) (b : ProcBehavior)
  | dispatchFault (msg : String)
deriving DecidableEq, Repr

/-- The per-item result dict built by `process_single_document`.
Keys absent from the dict at a given point are `Option.none`
(`test_query_result` is only added on success; `error` is initialised to
`None`). -/
structure DocResult where
  file_name : String
  file_path : String
  status : String
  start_time : ℚ
  error : Option String
  processing_time : ℚ
  output_dir : String
  test_query_result : Option String
deriving DecidableEq, Repr

/-- `test_result[:200] + "..." if len(test_result) > 200 else test_result` -/
def truncateResult (s : String) : String :=
  if s.length > 200 then s.take 200 ++ "..." else s

/-- Embedding of `MedicalBatchProcessor.process_single_document`
(lines 143-198): build the result dict in `processing` state, run the
external call, and update to the terminal state; any exception raised by
the external call is caught and converted to a `failed` record. -/
def process_single_document (f : FilePathRef) (output_dir : String)
    (start_time : ℚ) (b : ProcBehavior) : DocResult :=
  let base : DocResult :=
    { file_name := f.name
      file_path := f.path
      status := "processing"
      start_time := start_time
      error := none
      processing_time := 0
      output_dir := output_dir ++ "/" ++ f.stem
      test_query_result := none }
  match b with
  | ProcBehavior.success tEnd q =>
      { base with
          status := "completed"
          processing_time := tEnd - start_time
          test_query_result := some (truncateResult q) }
  | ProcBehavior.fault tEnd m =>
      { base with
          status := "failed"
          processing_time := tEnd - start_time
          error := some m }

/-- The value one task contributes to the list returned by
`asyncio.gather(*tasks, return_exceptions=True)`: the structured record
when the wrapper runs, the bare exception when dispatch fails. -/
def runItem (output_dir : String) (f : FilePathRef) (ib : ItemBehavior) :
    Except String DocResult :=
  match ib with
  | ItemBehavior.runs startTime b =>
      Except.ok (process_single_document f output_dir startTime b)
  | ItemBehavior.dispatchFault msg => Except.error msg

/-- A value of the `batch_results["documents"]` dict: either a full
per-item result dict, or the two-key dict
`{"status": "failed", "error": msg}` synthesized for a bare exception. -/
inductive DocEntry where
  | full (r : DocResult)
  | bare (status : String) (error : String)
deriving DecidableEq, Repr

/-- The `status` field of a documents entry (both shapes carry one). -/
def DocEntry.statusOf : DocEntry → String
  | DocEntry.full r => r.status
  | DocEntry.bare s _ => s

/-- Python dict assignment `d[k] = v`: overwrite in place when the key
exists, append otherwise. -/
def dictInsert (d : List (String × DocEntry)) (k : String) (v : DocEntry) :
    List (String × DocEntry) :=
  if d.any (fun p => p.1 = k) then
    d.map (fun p => if p.1 = k then (k, v) else p)
  else d ++ [(k, v)]

/-- Python dict lookup `d[k]` (as an option). -/
def dictGet (d : List (String × DocEntry)) (k : String) : Option DocEntry :=
  (d.find? (fun p => p.1 = k)).map (fun p => p.2)

/-- The `batch_results` dict accumulated by `process_documents_batch`. -/
structure BatchResults where
  total_documents : ℕ
  completed : ℕ
  failed : ℕ
  total_time : ℚ
  documents : List (String × DocEntry)
deriving DecidableEq, Repr

/-- One iteration of the result-processing loop of
`process_documents_batch` (lines 240-254), for the pair
`(file_paths[i], results[i])`. -/
def aggregateStep (acc : BatchResults) (fp : FilePathRef)
    (res : Except String DocResult) : BatchResults :=
  match res with
  | Except.error msg =>
      { acc with
          documents := dictInsert acc.documents fp.name
            (DocEntry.bare "failed" msg)
          failed := acc.failed + 1 }
  | Except.ok r =>
      let acc1 :=
        { acc with
            documents := dictInsert acc.documents r.file_name (DocEntry.full r) }
      let acc2 :=
        if r.status = "completed" then
          { acc1 with completed := acc1.completed + 1 }
        else
          { acc1 with failed := acc1.failed + 1 }
      { acc2 with total_time := acc2.total_time + r.processing_time }

/-- The `for i, result in enumerate(results)` loop: walk `file_paths` and
`results` in lockstep (in the code both have one entry per submitted task). -/
def aggregateLoop (acc : BatchResults) :
    List FilePathRef → List (Except String DocResult) → BatchResults
  | fp :: fps, r :: rs => aggregateLoop (aggregateStep acc fp r) fps rs
  | _, _ => acc

/-- Result processing stage of `process_documents_batch` (lines 232-256):
initialise the totals and fold the per-item results. -/
def processResults (file_paths : List FilePathRef)
    (results : List (Except String DocResult)) : BatchResults :=
  aggregateLoop
    { total_documents := file_paths.length
      completed := 0
      failed := 0
      total_time := 0
      documents := [] }
    file_paths results

/-- Embedding of `MedicalBatchProcessor.process_documents_batch`
(lines 200-256): one task per file, gathered with exceptions returned as
values, then aggregated.  `max_workers` is the semaphore capacity; the
gate bounds in-flight tasks (modelled by `GateStep` below) but does not
change which record each item yields, so the functional result does not
consult it. -/
def process_documents_batch (output_dir : String) (max_workers : ℕ)
    (items : List (FilePathRef × ItemBehavior)) : BatchResults :=
  let _ := max_workers
  processResults (items.map (fun x => x.1))
    (items.map (fun x => runItem output_dir x.1 x.2))

/-- One-decimal-place formatting of a percentage, as the integer number of
tenths: `"%.1f" % q` prints `ratePct1 q / 10 . ratePct1 q % 10`. -/
def ratePct1 (q : ℚ) : ℤ := round (q * 10)

/-- The quantities computed by `print_batch_summary`.  `success_rate_tenths`
is the one-decimal success-rate percentage in tenths (`667` prints as
`66.7%`); `avg_time` is the average-processing-time line, absent when it is
not printed; `detail` lists each document's name and status in dict order. -/
structure Report where
  total : ℕ
  completedCount : ℕ
  failedCount : ℕ
  total_time : ℚ
  success_rate_tenths : ℤ
  avg_time : Option ℚ
  detail : List (String × String)
deriving DecidableEq, Repr

/-- Embedding of `MedicalBatchProcessor.print_batch_summary`
(lines 258-282).  The success-rate line divides by
`results['total_documents']` with no guard, so with `total_documents = 0`
the method raises `ZeroDivisionError` (embedded as `.error`); the
average-time line is guarded by `completed > 0`. -/
def print_batch_summary (results : BatchResults) : Except String Report :=
  if results.total_documents = 0 then
    Except.error "ZeroDivisionError: division by zero"
  else
    Except.ok
      { total := results.total_documents
        completedCount := results.completed
        failedCount := results.failed
        total_time := results.total_time
        success_rate_tenths :=
          ratePct1 ((results.completed : ℚ) / (results.total_documents : ℚ)
            * 100)
        avg_time :=
          if results.completed > 0 then
            some (results.total_time / (results.completed : ℚ))
          else none
        detail := results.documents.map (fun p => (p.1, p.2.statusOf)) }

/-!
## Characterisation helpers

Per-result contributions to the aggregate counters, used to state and prove
the accounting lemmas about the result-processing loop.
-/

/-- Contribution of one gathered result to `batch_results["completed"]`. -/
def completedInc : Except String DocResult → ℕ
  | Except.ok r => if r.status = "completed" then 1 else 0
  | Except.error _ => 0

/-- Contribution of one gathered result to `batch_results["failed"]`. -/
def failedInc : Except String DocResult → ℕ
  | Except.ok r => if r.status = "completed" then 0 else 1
  | Except.error _ => 1

/-- Contribution of one gathered result to `batch_results["total_time"]`:
structured records contribute their `processing_time`, bare exceptions
contribute nothing. -/
def timeOf : Except String DocResult → ℚ
  | Except.ok r => r.processing_time
  | Except.error _ => 0

/-- Total `completed` count over a result list. -/
def completedCount (rs : List (Except String DocResult)) : ℕ :=
  (rs.map completedInc).sum

/-- Total `failed` count over a result list. -/
def failedCount (rs : List (Except String DocResult)) : ℕ :=
  (rs.map failedInc).sum

/-- Total `total_time` over a result list. -/
def sumTimes (rs : List (Except String DocResult)) : ℚ :=
  (rs.map timeOf).sum

/-- The key under which one result is stored in `batch_results["documents"]`:
`file_paths[i].name` for a bare exception, `result["file_name"]` for a
structured record. -/
def entryKey (fp : FilePathRef) : Except String DocResult → String
  | Except.error _ => fp.name
  | Except.ok r => r.file_name

/-- The documents-dict value stored for one result. -/
def entryVal : Except String DocResult → DocEntry
  | Except.error msg => DocEntry.bare "failed" msg
  | Except.ok r => DocEntry.full r

/-- The documents-dict pair contributed by one item when the driver runs it. -/
def entryFor (output_dir : String) (x : FilePathRef × ItemBehavior) :
    String × DocEntry :=
  (x.1.name, entryVal (runItem output_dir x.1 x.2))

/-!
## The concurrency gate

`process_documents_batch` creates `asyncio.Semaphore(self.max_workers)` and
wraps each item in `process_with_semaphore`, which acquires one slot
(`async with semaphore`) before calling `process_single_document` and
releases it when that call terminates — on normal return and on a raised
exception alike, by the semantics of `async with`.  The scheduling is
modelled as a transition system: each of the `N` tasks is `pending` until
it acquires a slot, `running` while it holds one, and `done` afterwards
(recording whether it finished by returning or by raising); a task may
start only when a slot is available. -/
inductive TaskPhase where
  | pending
  | running
  | done (raised : Bool)
deriving DecidableEq, Repr

/-- State of one batch run: the phase of each task and the number of free
semaphore slots. -/
structure GateState where
  phases : List TaskPhase
  avail : ℕ
deriving DecidableEq, Repr

/-- Number of tasks currently holding a gate slot. -/
def runningCount (phases : List TaskPhase) : ℕ :=
  (phases.map (fun p => if p = TaskPhase.running then 1 else 0)).sum

/-- Start of a batch of `N` tasks with semaphore capacity `K`: every task
pending, all `K` slots free. -/
def initGate (N K : ℕ) : GateState :=
  { phases := List.replicate N TaskPhase.pending, avail := K }

/-- One scheduler step of the batch run.  `acquire i` is task `i` entering
the `async with semaphore` block, possible only while a slot is free;
`release i raised` is task `i`'s `process_single_document` call
terminating (normally when `raised = false`, by an escaping exception when
`raised = true`), which frees its slot unconditionally. -/
inductive GateStep : GateState → GateState → Prop where
  | acquire (phases : List TaskPhase) (s : ℕ) (i : ℕ)
      (hi : phases[i]? = some TaskPhase.pending) (hs : 0 < s) :
      GateStep ⟨phases, s⟩ ⟨phases.set i TaskPhase.running, s - 1⟩
  | release (phases : List TaskPhase) (s : ℕ) (i : ℕ) (raised : Bool)
      (hi : phases[i]? = some TaskPhase.running) :
      GateStep ⟨phases, s⟩ ⟨phases.set i (TaskPhase.done raised), s + 1⟩

/-- The states a batch run of `N` tasks with capacity `K` can be in. -/
def GateReachable (N K : ℕ) (st : GateState) : Prop :=
  Relation.ReflTransGen GateStep (initGate N K) st

/-!
## Accounting lemmas about the result-processing loop
-/

lemma aggregateStep_fields (acc : BatchResults) (fp : FilePathRef)
    (r : Except String DocResult) :
    (aggregateStep acc fp r).total_documents = acc.total_documents ∧
    (aggregateStep acc fp r).completed = acc.completed + completedInc r ∧
    (aggregateStep acc fp r).failed = acc.failed + failedInc r ∧
    (aggregateStep acc fp r).total_time = acc.total_time + timeOf r ∧
    (aggregateStep acc fp r).documents
      = dictInsert acc.documents (entryKey fp r) (entryVal r) := by
  cases r with
  | error msg =>
      simp [aggregateStep, completedInc, failedInc, timeOf, entryKey, entryVal]
  | ok d =>
      by_cases h : d.status = "completed" <;>
        simp [aggregateStep, completedInc, failedInc, timeOf, entryKey, entryVal, h]

lemma completedInc_add_failedInc (r : Except String DocResult) :
    completedInc r + failedInc r = 1 := by
  cases r with
  | error msg => rfl
  | ok d =>
      by_cases h : d.status = "completed" <;> simp [completedInc, failedInc, h]

lemma completedCount_add_failedCount (rs : List (Except String DocResult)) :
    completedCount rs + failedCount rs = rs.length := by
  induction rs with
  | nil => rfl
  | cons r rs ih =>
      simp only [completedCount, failedCount, List.map_cons, List.sum_cons,
        List.length_cons] at *
      have := completedInc_add_failedInc r
      omega

lemma aggregateLoop_fields :
    ∀ (fps : List FilePathRef) (rs : List (Except String DocResult))
      (acc : BatchResults), fps.length = rs.length →
    (aggregateLoop acc fps rs).total_documents = acc.total_documents ∧
    (aggregateLoop acc fps rs).completed = acc.completed + completedCount rs ∧
    (aggregateLoop acc fps rs).failed = acc.failed + failedCount rs ∧
    (aggregateLoop acc fps rs).total_time = acc.total_time + sumTimes rs := by
  intro fps
  induction fps with
  | nil =>
      intro rs acc hlen
      cases rs with
      | nil =>
          simp [aggregateLoop, completedCount, failedCount, sumTimes]
      | cons r rs => simp at hlen
  | cons fp fps ih =>
      intro rs acc hlen
      cases rs with
      | nil => simp at hlen
      | cons r rs =>
          have hlen' : fps.length = rs.length := by
            simpa using hlen
          have hstep := aggregateStep_fields acc fp r
          have hih := ih rs (aggregateStep acc fp r) hlen'
          simp only [aggregateLoop]
          refine ⟨?_, ?_, ?_, ?_⟩
          · rw [hih.1, hstep.1]
          · rw [hih.2.1, hstep.2.1]
            simp only [completedCount, List.map_cons, List.sum_cons]
            omega
          · rw [hih.2.2.1, hstep.2.2.1]
            simp only [failedCount, List.map_cons, List.sum_cons]
            omega
          · rw [hih.2.2.2, hstep.2.2.2.1]
            simp only [sumTimes, List.map_cons, List.sum_cons]
            ring

lemma processResults_fields (fps : List FilePathRef)
    (rs : List (Except String DocResult)) (hlen : fps.length = rs.length) :
    (processResults fps rs).total_documents = fps.length ∧
    (processResults fps rs).completed = completedCount rs ∧
    (processResults fps rs).failed = failedCount rs ∧
    (processResults fps rs).total_time = sumTimes rs := by
  have h := aggregateLoop_fields fps rs
    { total_documents := fps.length, completed := 0, failed := 0,
      total_time := 0, documents := [] } hlen
  simpa [processResults] using h

/-!
## Lemmas about the documents dict
-/

lemma dictInsert_fresh (d : List (String × DocEntry)) (k : String)
    (v : DocEntry) (h : k ∉ d.map Prod.fst) :
    dictInsert d k v = d ++ [(k, v)] := by
  have hany : d.any (fun p => p.1 = k) = false := by
    simp only [List.any_eq_false, decide_eq_true_eq]
    intro p hp hpk
    exact h (hpk ▸ List.mem_map_of_mem Prod.fst hp)
  simp [dictInsert, hany]

lemma runItem_file_name (output_dir : String) (f : FilePathRef)
    (startTime : ℚ) (b : ProcBehavior) (r : DocResult)
    (h : runItem output_dir f (ItemBehavior.runs startTime b) = Except.ok r) :
    r.file_name = f.name := by
  cases b <;>
    (simp only [runItem, process_single_document, Except.ok.injEq] at h;
     rw [← h])

lemma entryKey_runItem (output_dir : String) (f : FilePathRef)
    (ib : ItemBehavior) :
    entryKey f (runItem output_dir f ib) = f.name := by
  cases ib with
  | dispatchFault msg => rfl
  | runs startTime b => cases b <;> rfl

lemma aggregateLoop_documents (output_dir : String) :
    ∀ (items : List (FilePathRef × ItemBehavior)) (acc : BatchResults),
    (items.map (fun x => x.1.name)).Nodup →
    (∀ n ∈ items.map (fun x => x.1.name), n ∉ acc.documents.map Prod.fst) →
    (aggregateLoop acc (items.map (fun x => x.1))
        (items.map (fun x => runItem output_dir x.1 x.2))).documents
      = acc.documents ++ items.map (entryFor output_dir) := by
  intro items
  induction items with
  | nil => intro acc _ _; simp [aggregateLoop]
  | cons x items ih =>
      intro acc hnd hfresh
      simp only [List.map_cons, aggregateLoop]
      have hstep := (aggregateStep_fields acc x.1 (runItem output_dir x.1 x.2)).2.2.2.2
      rw [entryKey_runItem] at hstep
      have hx : x.1.name ∉ acc.documents.map Prod.fst :=
        hfresh x.1.name (by simp)
      have hdocs : (aggregateStep acc x.1 (runItem output_dir x.1 x.2)).documents
          = acc.documents ++ [entryFor output_dir x] := by
        rw [hstep, dictInsert_fresh _ _ _ hx]; rfl
      have hnd' : (items.map (fun x => x.1.name)).Nodup := by
        simpa using hnd.of_cons
      have hxname : x.1.name ∉ items.map (fun x => x.1.name) := by
        have := hnd
        simp only [List.map_cons, List.nodup_cons] at this
        exact this.1
      have hfresh' : ∀ n ∈ items.map (fun x => x.1.name),
          n ∉ (aggregateStep acc x.1 (runItem output_dir x.1 x.2)).documents.map Prod.fst := by
        intro n hn
        rw [hdocs]
        simp only [List.map_append, List.mem_append]
        rintro (hmem | hmem)
        · exact hfresh n (by simp [hn]) hmem
        · simp only [entryFor, List.map_cons, List.map_nil,
            List.mem_singleton] at hmem
          exact hxname (hmem ▸ hn)
      rw [ih (aggregateStep acc x.1 (runItem output_dir x.1 x.2)) hnd' hfresh',
        hdocs]
      simp

lemma process_documents_batch_documents (output_dir : String)
    (max_workers : ℕ) (items : List (FilePathRef × ItemBehavior))
    (hnd : (items.map (fun x => x.1.name)).Nodup) :
    (process_documents_batch output_dir max_workers items).documents
      = items.map (entryFor output_dir) := by
  have h := aggregateLoop_documents output_dir items
    { total_documents := (items.map (fun x => x.1)).length, completed := 0,
      failed := 0, total_time := 0, documents := [] } hnd (by simp)
  simpa [process_documents_batch, processResults] using h

lemma find?_append_of_none {α : Type} (p : α → Bool) (l₁ l₂ : List α)
    (h : ∀ x ∈ l₁, p x = false) :
    (l₁ ++ l₂).find? p = l₂.find? p := by
  induction l₁ with
  | nil => rfl
  | cons a l₁ ih =>
      simp only [List.cons_append, List.find?]
      rw [h a (by simp)]
      exact ih (fun x hx => h x (by simp [hx]))

/-!
## The gate invariant
-/

lemma runningCount_set (l : List TaskPhase) :
    ∀ (i : ℕ) (a b : TaskPhase), l[i]? = some a →
    runningCount (l.set i b)
        + (if a = TaskPhase.running then 1 else 0)
      = runningCount l + (if b = TaskPhase.running then 1 else 0) := by
  induction l with
  | nil => intro i a b h; simp at h
  | cons x l ih =>
      intro i a b h
      cases i with
      | zero =>
          simp only [List.getElem?_cons_zero, Option.some.injEq] at h
          subst h
          simp only [List.set_cons_zero, runningCount, List.map_cons,
            List.sum_cons]
          omega
      | succ i =>
          simp only [List.getElem?_cons_succ] at h
          have := ih i a b h
          simp only [List.set_cons_succ, runningCount, List.map_cons,
            List.sum_cons] at *
          omega

lemma gate_invariant (N K : ℕ) (st : GateState)
    (h : GateReachable N K st) :
    runningCount st.phases + st.avail = K := by
  induction h with
  | refl =>
      simp only [initGate, runningCount]
      have : (List.replicate N TaskPhase.pending).map
          (fun p => if p = TaskPhase.running then 1 else 0)
          = List.replicate N (0 : ℕ) := by
        simp [List.map_replicate]
      rw [this]
      simp
  | tail hsteps hstep ih =>
      cases hstep with
      | acquire phases s i hi hs =>
          have hset := runningCount_set phases i TaskPhase.pending
            TaskPhase.running hi
          simp at hset
          dsimp only at ih ⊢
          omega
      | release phases s i raised hi =>
          have hset := runningCount_set phases i TaskPhase.running
            (TaskPhase.done raised) hi
          simp at hset
          dsimp only at ih ⊢
          omega

/-!
## Concrete fixtures used by the scenario theorems and witnesses
-/

def fA : FilePathRef := { path := "./data/raw/a.pdf", name := "a.pdf", stem := "a" }
def fB : FilePathRef := { path := "./data/raw/b.pdf", name := "b.pdf", stem := "b" }
def fC : FilePathRef := { path := "./data/raw/c.pdf", name := "c.pdf", stem := "c" }
def fX : FilePathRef := { path := "./data/raw/x.pdf", name := "x.pdf", stem := "x" }

/-- A second file that shares the file name `a.pdf` with `fA`. -/
def fA2 : FilePathRef := { path := "./other/a.pdf", name := "a.pdf", stem := "a" }

/-- A two-item batch with one success and one bare dispatch fault. -/
def witnessItems : List (FilePathRef × ItemBehavior) :=
  [(fA, ItemBehavior.runs 0 (ProcBehavior.success 1 "fine")),
   (fB, ItemBehavior.dispatchFault "boom")]

/-!
## Claims
-/

/-- C1: for every batch of `N` submitted WorkItems processed by
`process_documents_batch` with any gate capacity `K ∈ [1, N]` and any mix
of per-item successes, per-item faults and bare unhandled faults, the
summary satisfies `completed + failed = total` and `total` equals `N`, the
number of WorkItems submitted. -/
theorem batch_completed_add_failed_eq_total (output_dir : String) (K : ℕ)
    (items : List (FilePathRef × ItemBehavior))
    (hK1 : 1 ≤ K) (hKN : K ≤ items.length) :
    (process_documents_batch output_dir K items).completed
        + (process_documents_batch output_dir K items).failed
      = (process_documents_batch output_dir K items).total_documents
    ∧ (process_documents_batch output_dir K items).total_documents
      = items.length := by
  have hlen : (items.map (fun x => x.1)).length
      = (items.map (fun x => runItem output_dir x.1 x.2)).length := by simp
  have h := processResults_fields _ _ hlen
  have hcf := completedCount_add_failedCount
    (items.map (fun x => runItem output_dir x.1 x.2))
  simp only [process_documents_batch]
  refine ⟨?_, ?_⟩
  · rw [h.1, h.2.1, h.2.2.1, hcf]
    simp
  · rw [h.1]
    simp

theorem batch_completed_add_failed_eq_total_witness :
    (1 ≤ 1 ∧ 1 ≤ witnessItems.length) ∧
    ((process_documents_batch "./batch_output" 1 witnessItems).completed
        + (process_documents_batch "./batch_output" 1 witnessItems).failed
      = (process_documents_batch "./batch_output" 1 witnessItems).total_documents
    ∧ (process_documents_batch "./batch_output" 1 witnessItems).total_documents
      = witnessItems.length) :=
  ⟨⟨le_refl 1, by decide⟩,
   batch_completed_add_failed_eq_total "./batch_output" 1 witnessItems
     (le_refl 1) (by decide)⟩

/-- C2: at no instant of a batch run do more than `K` per-item processing
calls hold the concurrency gate: in every state reachable from the start
of a run of `N` tasks with semaphore capacity `K` — where a task starts
only by acquiring a free slot and frees its slot exactly when its
processing terminates, whether it returns normally or raises — the number
of tasks holding a slot never exceeds `K`. -/
theorem gate_running_le_capacity (N K : ℕ) (st : GateState)
    (h : GateReachable N K st) :
    runningCount st.phases ≤ K := by
  have hinv := gate_invariant N K st h
  omega

theorem gate_running_le_capacity_witness :
    GateReachable 2 1
      { phases := (List.replicate 2 TaskPhase.pending).set 0 TaskPhase.running,
        avail := 0 }
    ∧ runningCount
        ((List.replicate 2 TaskPhase.pending).set 0 TaskPhase.running) ≤ 1 :=
  have hstep : GateStep (initGate 2 1)
      { phases := (List.replicate 2 TaskPhase.pending).set 0 TaskPhase.running,
        avail := 0 } :=
    GateStep.acquire (List.replicate 2 TaskPhase.pending) 1 0 (by decide)
      (by decide)
  have hreach : GateReachable 2 1
      { phases := (List.replicate 2 TaskPhase.pending).set 0 TaskPhase.running,
        avail := 0 } :=
    Relation.ReflTransGen.single hstep
  ⟨hreach, gate_running_le_capacity 2 1 _ hreach⟩

/-- C3: a WorkItem whose processing raises an exception yields a structured
OutcomeRecord with status `failed`, duration `now − start`, and the fault's
description as `error`; the fault never escapes the per-item wrapper (the
driver receives `Except.ok`, not a bare fault), and the other items'
aggregate outcomes are exactly what they would be without the faulting
item (the fault adds one `failed` and leaves `completed` unchanged). -/
theorem per_item_fault_yields_failed_record (f : FilePathRef)
    (output_dir : String) (start_time tEnd : ℚ) (msg : String) (K : ℕ)
    (pre post : List (FilePathRef × ItemBehavior)) :
    (process_single_document f output_dir start_time
        (ProcBehavior.fault tEnd msg)).status = "failed"
    ∧ (process_single_document f output_dir start_time
        (ProcBehavior.fault tEnd msg)).processing_time = tEnd - start_time
    ∧ (process_single_document f output_dir start_time
        (ProcBehavior.fault tEnd msg)).error = some msg
    ∧ runItem output_dir f
        (ItemBehavior.runs start_time (ProcBehavior.fault tEnd msg))
      = Except.ok (process_single_document f output_dir start_time
          (ProcBehavior.fault tEnd msg))
    ∧ (process_documents_batch output_dir K (pre ++
          (f, ItemBehavior.runs start_time (ProcBehavior.fault tEnd msg))
            :: post)).completed
      = (process_documents_batch output_dir K (pre ++ post)).completed
    ∧ (process_documents_batch output_dir K (pre ++
          (f, ItemBehavior.runs start_time (ProcBehavior.fault tEnd msg))
            :: post)).failed
      = (process_documents_batch output_dir K (pre ++ post)).failed + 1 := by
  refine ⟨rfl, rfl, rfl, rfl, ?_, ?_⟩
  all_goals
    have hlen1 : ((pre ++ (f, ItemBehavior.runs start_time
          (ProcBehavior.fault tEnd msg)) :: post).map (fun x => x.1)).length
        = ((pre ++ (f, ItemBehavior.runs start_time
            (ProcBehavior.fault tEnd msg)) :: post).map
              (fun x => runItem output_dir x.1 x.2)).length := by simp
    have hlen2 : ((pre ++ post).map (fun x => x.1)).length
        = ((pre ++ post).map (fun x => runItem output_dir x.1 x.2)).length := by
      simp
    have h1 := processResults_fields _ _ hlen1
    have h2 := processResults_fields _ _ hlen2
    simp only [process_documents_batch]
  · rw [h1.2.1, h2.2.1]
    simp only [List.map_append, List.map_cons, completedCount, List.sum_append,
      List.sum_cons]
    have : completedInc (runItem output_dir f (ItemBehavior.runs start_time
        (ProcBehavior.fault tEnd msg))) = 0 := by
      simp [runItem, process_single_document, completedInc]
    rw [this]
    omega
  · rw [h1.2.2.1, h2.2.2.1]
    simp only [List.map_append, List.map_cons, failedCount, List.sum_append,
      List.sum_cons]
    have : failedInc (runItem output_dir f (ItemBehavior.runs start_time
        (ProcBehavior.fault tEnd msg))) = 1 := by
      simp [runItem, process_single_document, failedInc]
    rw [this]
    omega

/-- C8: in every OutcomeRecord produced by per-item processing, the `error`
field is populated only when the status is `failed`, and the auxiliary
payload (the truncated validation result) is attached only when the status
is `completed`. -/
theorem outcome_record_field_discipline (f : FilePathRef)
    (output_dir : String) (start_time : ℚ) (b : ProcBehavior) :
    ((process_single_document f output_dir start_time b).error.isSome →
      (process_single_document f output_dir start_time b).status = "failed")
    ∧ ((process_single_document f output_dir start_time b).test_query_result.isSome →
      (process_single_document f output_dir start_time b).status = "completed") := by
  cases b <;> simp [process_single_document]

theorem outcome_record_field_discipline_witness :
    (process_single_document fB "./batch_output" 0
      (ProcBehavior.fault 0 "parse error")).status = "failed"
    ∧ (process_single_document fA "./batch_output" 0
      (ProcBehavior.success 1 "fine")).status = "completed" :=
  ⟨(outcome_record_field_discipline fB "./batch_output" 0
      (ProcBehavior.fault 0 "parse error")).1 (by decide),
   (outcome_record_field_discipline fA "./batch_output" 0
      (ProcBehavior.success 1 "fine")).2 (by decide)⟩

/-- C4, counterexample: in the batch whose single item `x.pdf` reaches the
aggregator as a bare fault, the documents entry under `x.pdf` is not a
record carrying the item's name/path identity fields — the synthesized dict
has only `status` and `error` keys. -/
theorem bare_fault_record_lacks_identity_fields :
    ¬ ∃ r : DocResult,
      dictGet (process_documents_batch "./batch_output" 2
          [(fX, ItemBehavior.dispatchFault "boom")]).documents "x.pdf"
        = some (DocEntry.full r)
      ∧ r.file_name = "x.pdf" ∧ r.file_path = "./data/raw/x.pdf" := by
  rintro ⟨r, hr, -, -⟩
  have hval : dictGet (process_documents_batch "./batch_output" 2
      [(fX, ItemBehavior.dispatchFault "boom")]).documents "x.pdf"
      = some (DocEntry.bare "failed" "boom") := rfl
  rw [hval] at hr
  simp at hr

/-- C4, amended: for every per-item result that reaches the aggregation
stage as a bare fault, the aggregator synthesizes a `failed` OutcomeRecord
keyed by the corresponding item's name, with `error` set to the fault's
description, and increments the failed count for it; the synthesized
record itself carries only the `status` and `error` fields — the item's
identity is preserved through the mapping key, not through name/path
fields of the record. -/
theorem bare_fault_synthesized_record (output_dir : String) (K : ℕ)
    (pre post : List (FilePathRef × ItemBehavior)) (f : FilePathRef)
    (msg : String)
    (hnd : ((pre ++ (f, ItemBehavior.dispatchFault msg) :: post).map
      (fun x => x.1.name)).Nodup) :
    dictGet (process_documents_batch output_dir K
        (pre ++ (f, ItemBehavior.dispatchFault msg) :: post)).documents f.name
      = some (DocEntry.bare "failed" msg)
    ∧ (process_documents_batch output_dir K
        (pre ++ (f, ItemBehavior.dispatchFault msg) :: post)).failed
      = (process_documents_batch output_dir K (pre ++ post)).failed + 1 := by
  constructor
  · rw [process_documents_batch_documents output_dir K _ hnd]
    have hfree : ∀ q ∈ pre.map (entryFor output_dir),
        (fun q => decide (q.1 = f.name)) q = false := by
      intro q hq
      simp only [List.mem_map] at hq
      obtain ⟨x, hx, hxq⟩ := hq
      simp only [decide_eq_false_iff_not]
      intro hqname
      have hmem : f.name ∈ pre.map (fun x => x.1.name) := by
        rw [← hqname, ← hxq]
        exact List.mem_map_of_mem (fun x => x.1.name) hx
      rw [List.map_append, List.map_cons] at hnd
      have hdisj := (List.nodup_append.mp hnd).2.2
      exact hdisj hmem (List.mem_cons_self f.name _)
    simp only [List.map_append, List.map_cons, dictGet]
    rw [find?_append_of_none _ _ _ hfree]
    rw [List.find?_cons_of_pos _ (by simp [entryFor])]
    rfl
  · have hlen1 : ((pre ++ (f, ItemBehavior.dispatchFault msg) :: post).map
        (fun x => x.1)).length
        = ((pre ++ (f, ItemBehavior.dispatchFault msg) :: post).map
            (fun x => runItem output_dir x.1 x.2)).length := by simp
    have hlen2 : ((pre ++ post).map (fun x => x.1)).length
        = ((pre ++ post).map (fun x => runItem output_dir x.1 x.2)).length := by
      simp
    have h1 := processResults_fields _ _ hlen1
    have h2 := processResults_fields _ _ hlen2
    simp only [process_documents_batch]
    rw [h1.2.2.1, h2.2.2.1]
    simp only [List.map_append, List.map_cons, failedCount, List.sum_append,
      List.sum_cons]
    have : failedInc (runItem output_dir f (ItemBehavior.dispatchFault msg))
        = 1 := rfl
    rw [this]
    omega

theorem bare_fault_synthesized_record_witness :
    (([] ++ (fX, ItemBehavior.dispatchFault "boom") :: []).map
      (fun x : FilePathRef × ItemBehavior => x.1.name)).Nodup
    ∧ (dictGet (process_documents_batch "./batch_output" 2
          ([] ++ (fX, ItemBehavior.dispatchFault "boom") :: [])).documents
          fX.name
        = some (DocEntry.bare "failed" "boom")
      ∧ (process_documents_batch "./batch_output" 2
          ([] ++ (fX, ItemBehavior.dispatchFault "boom") :: [])).failed
        = (process_documents_batch "./batch_output" 2 ([] ++ [])).failed + 1) :=
  ⟨by decide,
   bare_fault_synthesized_record "./batch_output" 2 [] [] fX "boom" (by decide)⟩

/-- C5, counterexample: on a summary with `total_documents = 0` the report
renderer does not report an undefined/omitted success rate — the unguarded
division `completed / total_documents` raises `ZeroDivisionError`, so no
report is produced at all. -/
theorem success_rate_total_zero_raises :
    ¬ ∃ rep : Report,
      print_batch_summary (processResults [] []) = Except.ok rep := by
  rintro ⟨rep, h⟩
  have hval : print_batch_summary (processResults [] [])
      = Except.error "ZeroDivisionError: division by zero" := rfl
  rw [hval] at h
  exact Except.noConfusion h

/-- C5, amended: the report renderer computes the success rate as
`completed / total × 100` to one decimal place, but performs the division
unguarded: for a summary with `total = 0` the division by zero raises and
the renderer fails instead of reporting the rate as undefined or
omitted. -/
theorem success_rate_one_decimal (r : BatchResults) :
    (r.total_documents = 0 →
      print_batch_summary r
        = Except.error "ZeroDivisionError: division by zero")
    ∧ (r.total_documents ≠ 0 →
      (print_batch_summary r).toOption.map Report.success_rate_tenths
        = some (ratePct1
            ((r.completed : ℚ) / (r.total_documents : ℚ) * 100))) := by
  constructor
  · intro h
    simp [print_batch_summary, h]
  · intro h
    simp [print_batch_summary, h, Except.toOption]

def oneBatch : BatchResults :=
  process_documents_batch "./batch_output" 1
    [(fA, ItemBehavior.runs 0 (ProcBehavior.success 1 "fine"))]

theorem success_rate_one_decimal_witness :
    print_batch_summary (processResults [] [])
      = Except.error "ZeroDivisionError: division by zero"
    ∧ (print_batch_summary oneBatch).toOption.map Report.success_rate_tenths
      = some (ratePct1
          ((oneBatch.completed : ℚ) / (oneBatch.total_documents : ℚ) * 100)) :=
  ⟨(success_rate_one_decimal (processResults [] [])).1 rfl,
   (success_rate_one_decimal oneBatch).2 (by decide)⟩

/-- C7: the report renderer omits the average duration per completed item
whenever `completed = 0` (it is never computed as `0/0`), and when
`completed > 0` it reports the average as the cumulative duration divided
by the completed count. -/
theorem avg_duration_guard (r : BatchResults) :
    (r.completed = 0 → ∀ rep : Report,
      print_batch_summary r = Except.ok rep → rep.avg_time = none)
    ∧ (0 < r.completed → ∀ rep : Report,
      print_batch_summary r = Except.ok rep →
      rep.avg_time = some (r.total_time / (r.completed : ℚ))) := by
  constructor
  · intro h rep hok
    by_cases h0 : r.total_documents = 0
    · simp [print_batch_summary, h0] at hok
    · simp only [print_batch_summary, h0, if_false, Except.ok.injEq,
        reduceIte] at hok
      rw [← hok]
      simp [h]
  · intro h rep hok
    by_cases h0 : r.total_documents = 0
    · simp [print_batch_summary, h0] at hok
    · simp only [print_batch_summary, h0, if_false, Except.ok.injEq,
        reduceIte] at hok
      rw [← hok]
      simp [h]

def failBatch : BatchResults :=
  process_documents_batch "./batch_output" 1
    [(fX, ItemBehavior.dispatchFault "boom")]

theorem avg_duration_guard_witness :
    failBatch.completed = 0
    ∧ (print_batch_summary failBatch).toOption.map Report.avg_time
      = some none := by
  refine ⟨by decide, ?_⟩
  have h := (avg_duration_guard failBatch).1 (by decide)
  have hsome : (print_batch_summary failBatch).toOption.isSome = true := rfl
  cases hval : print_batch_summary failBatch with
  | error e =>
      rw [hval] at hsome
      simp [Except.toOption] at hsome
  | ok rep =>
      simp [Except.toOption, h rep hval]

/-- C9: the aggregation over a collection of per-item results is an
order-independent (commutative) pure reduction: its final `total`,
`completed`, `failed` and cumulative-duration values agree on every
permutation of the same collection.  (Determinism and non-mutation of the
inputs are definitional in this embedding: `processResults` is a pure
function of its arguments.) -/
theorem aggregation_order_independent (fps : List FilePathRef)
    (rs₁ rs₂ : List (Except String DocResult))
    (hlen : fps.length = rs₁.length) (hperm : rs₁.Perm rs₂) :
    (processResults fps rs₁).total_documents
      = (processResults fps rs₂).total_documents
    ∧ (processResults fps rs₁).completed = (processResults fps rs₂).completed
    ∧ (processResults fps rs₁).failed = (processResults fps rs₂).failed
    ∧ (processResults fps rs₁).total_time
      = (processResults fps rs₂).total_time := by
  have hlen2 : fps.length = rs₂.length := hlen.trans hperm.length_eq
  have h1 := processResults_fields fps rs₁ hlen
  have h2 := processResults_fields fps rs₂ hlen2
  refine ⟨?_, ?_, ?_, ?_⟩
  · rw [h1.1, h2.1]
  · rw [h1.2.1, h2.2.1]
    simpa [completedCount] using (hperm.map completedInc).sum_eq
  · rw [h1.2.2.1, h2.2.2.1]
    simpa [failedCount] using (hperm.map failedInc).sum_eq
  · rw [h1.2.2.2, h2.2.2.2]
    simpa [sumTimes] using (hperm.map timeOf).sum_eq

theorem aggregation_order_independent_witness :
    (processResults [fA, fB]
        [Except.error "boom",
         Except.ok (process_single_document fA "./batch_output" 0
           (ProcBehavior.success 1 "fine"))]).total_documents
      = (processResults [fA, fB]
          [Except.ok (process_single_document fA "./batch_output" 0
             (ProcBehavior.success 1 "fine")),
           Except.error "boom"]).total_documents
    ∧ (processResults [fA, fB]
        [Except.error "boom",
         Except.ok (process_single_document fA "./batch_output" 0
           (ProcBehavior.success 1 "fine"))]).completed
      = (processResults [fA, fB]
          [Except.ok (process_single_document fA "./batch_output" 0
             (ProcBehavior.success 1 "fine")),
           Except.error "boom"]).completed
    ∧ (processResults [fA, fB]
        [Except.error "boom",
         Except.ok (process_single_document fA "./batch_output" 0
           (ProcBehavior.success 1 "fine"))]).failed
      = (processResults [fA, fB]
          [Except.ok (process_single_document fA "./batch_output" 0
             (ProcBehavior.success 1 "fine")),
           Except.error "boom"]).failed
    ∧ (processResults [fA, fB]
        [Except.error "boom",
         Except.ok (process_single_document fA "./batch_output" 0
           (ProcBehavior.success 1 "fine"))]).total_time
      = (processResults [fA, fB]
          [Except.ok (process_single_document fA "./batch_output" 0
             (ProcBehavior.success 1 "fine")),
           Except.error "boom"]).total_time :=
  aggregation_order_independent [fA, fB]
    [Except.error "boom",
     Except.ok (process_single_document fA "./batch_output" 0
       (ProcBehavior.success 1 "fine"))]
    [Except.ok (process_single_document fA "./batch_output" 0
       (ProcBehavior.success 1 "fine")),
     Except.error "boom"]
    (by decide)
    (List.Perm.swap _ _ _)

/-- The end-to-end scenario batch: three items, `b.pdf` raises
`"parse error"` immediately, `a.pdf` and `c.pdf` succeed in 1.0s and 2.0s. -/
def scenarioItems : List (FilePathRef × ItemBehavior) :=
  [(fA, ItemBehavior.runs 0 (ProcBehavior.success 1 "Overview of document a")),
   (fB, ItemBehavior.runs 0 (ProcBehavior.fault 0 "parse error")),
   (fC, ItemBehavior.runs 0 (ProcBehavior.success 2 "Overview of document c"))]

def scenarioSummary : BatchResults :=
  process_documents_batch "./batch_output" 2 scenarioItems

/-- C6: for the batch `["a.pdf","b.pdf","c.pdf"]` with `K = 2`, where
`b.pdf` raises `"parse error"` and the others succeed in 1.0s and 2.0s,
the summary has `total = 3`, `completed = 2`, `failed = 1`, the record
under `b.pdf` is failed with error `"parse error"`, the cumulative
duration is 3.0s (summed over the entries carrying a duration), and the
success rate renders as 66.7%. -/
theorem end_to_end_scenario :
    scenarioSummary.total_documents = 3
    ∧ scenarioSummary.completed = 2
    ∧ scenarioSummary.failed = 1
    ∧ scenarioSummary.total_time = 3
    ∧ dictGet scenarioSummary.documents "b.pdf"
        = some (DocEntry.full (process_single_document fB "./batch_output" 0
            (ProcBehavior.fault 0 "parse error")))
    ∧ (process_single_document fB "./batch_output" 0
        (ProcBehavior.fault 0 "parse error")).status = "failed"
    ∧ (process_single_document fB "./batch_output" 0
        (ProcBehavior.fault 0 "parse error")).error = some "parse error"
    ∧ (print_batch_summary scenarioSummary).toOption.map
        Report.success_rate_tenths = some 667 := by
  refine ⟨by decide, by decide, by decide, ?_, rfl, rfl, rfl, ?_⟩
  · simp only [scenarioSummary, scenarioItems, process_documents_batch,
      processResults, aggregateLoop, aggregateStep, runItem,
      process_single_document, fA, fB, fC, List.map, List.length,
      String.reduceEq, reduceIte]
    norm_num
  · have hc : scenarioSummary.completed = 2 := by decide
    have ht : scenarioSummary.total_documents = 3 := by decide
    simp only [print_batch_summary, hc, ht]
    norm_num [Except.toOption, ratePct1, round_eq]

/-- A batch in which two distinct items share the file name `a.pdf`. -/
def dupItems : List (FilePathRef × ItemBehavior) :=
  [(fA, ItemBehavior.runs 0 (ProcBehavior.success 1 "first")),
   (fA2, ItemBehavior.runs 0 (ProcBehavior.success 2 "second"))]

/-- C10: when several WorkItems share a file name, the documents mapping
retains only the record written last for that name (so it has fewer
entries than `total`), while `total`, `completed` and `failed` still count
every submitted item; the one-record-per-item lookup guarantee holds
exactly for batches with pairwise-distinct item names, for which the
mapping has one entry per item. -/
theorem duplicate_names_last_write_wins :
    (∀ (output_dir : String) (K : ℕ)
      (items : List (FilePathRef × ItemBehavior)),
      (items.map (fun x => x.1.name)).Nodup →
      (process_documents_batch output_dir K items).documents.length
        = items.length)
    ∧ ((process_documents_batch "./batch_output" 2 dupItems).documents.length
        = 1
      ∧ (process_documents_batch "./batch_output" 2 dupItems).total_documents
        = 2
      ∧ (process_documents_batch "./batch_output" 2 dupItems).completed = 2
      ∧ (process_documents_batch "./batch_output" 2 dupItems).failed = 0
      ∧ dictGet (process_documents_batch "./batch_output" 2
            dupItems).documents "a.pdf"
        = some (DocEntry.full (process_single_document fA2 "./batch_output" 0
            (ProcBehavior.success 2 "second")))) := by
  constructor
  · intro output_dir K items hnd
    rw [process_documents_batch_documents output_dir K items hnd]
    simp
  · exact ⟨by decide, by decide, by decide, by decide, rfl⟩

theorem duplicate_names_last_write_wins_witness :
    (witnessItems.map (fun x => x.1.name)).Nodup
    ∧ (process_documents_batch "./batch_output" 1 witnessItems).documents.length
      = witnessItems.length :=
  ⟨by decide,
   duplicate_names_last_write_wins.1 "./batch_output" 1 witnessItems
     (by decide)⟩
